import Mathlib

/-!
Verification development for the window-capture / input-injection core:
`src/utils/windows_input.py` and `src/utils/windows_capture.py`.

Machine integers are modelled as `ℤ`/`ℕ`; Python float arithmetic on the
small quantities involved (pixel coordinates, durations) is modelled
exactly by `ℚ`; Python `int(...)` applied to a number is truncation
toward zero, modelled by `truncQ`.  Python exceptions are modelled by
`Except`, and fallible OS calls are passed in as explicit `Except`- or
function-valued parameters.
-/

namespace WinInput

/-- Truncation toward zero on `ℚ`, the semantics of Python `int(...)`
applied to a non-integral number. -/
def truncQ (x : ℚ) : ℤ := if 0 ≤ x then ⌊x⌋ else ⌈x⌉

/-- From `windows_input.py`, `_to_absolute_coords` (lines 83-89), with the
screen size returned by `_get_screen_size` passed explicitly:
`abs_x = int(x * 65535 / width)`, `abs_y = int(y * 65535 / height)`. -/
def _to_absolute_coords (x y width height : ℤ) : ℤ × ℤ :=
  (truncQ ((x * 65535 : ℚ) / width), truncQ ((y * 65535 : ℚ) / height))

/-- The spec's formula for the coordinate conversion, written with
rounding to nearest as the spec's word `round` says:
`abs = round(pixel * 65535 / screenDimension)`. -/
def toAbsoluteSpec (p dim : ℤ) : ℤ := round ((p * 65535 : ℚ) / dim)

/-- Mouse events emitted by the injector, at pixel level.  `move x y`
stands for `move_mouse(x, y)`; `down`/`up` for `mouse_down()`/`mouse_up()`. -/
inductive MouseEv where
  | move : ℤ → ℤ → MouseEv
  | down : MouseEv
  | up : MouseEv
  deriving DecidableEq, Repr

/-- From `drag` (line 144): `steps = max(10, int(duration * 60))`. -/
def dragSteps (duration : ℚ) : ℕ := max 10 (truncQ (duration * 60)).toNat

/-- The spec's formula for the step count:
`steps = max(10, round(duration_seconds * 60))`. -/
def dragStepsSpec (duration : ℚ) : ℕ := max 10 (round (duration * 60)).toNat

/-- From `drag` (lines 146-148): one interpolated coordinate,
`int(start + (end - start) * t)` with `t = (i + 1) / steps`. -/
def dragWaypoint (s e : ℤ) (steps : ℕ) (i : ℕ) : ℤ :=
  truncQ ((s : ℚ) + ((e : ℚ) - (s : ℚ)) * (((i : ℚ) + 1) / (steps : ℚ)))

/-- From `drag` (lines 136-155): the ordered sequence of injected mouse
events (the `time.sleep` pacing carries no event and is not modelled). -/
def dragEvents (sx sy ex ey : ℤ) (duration : ℚ) : List MouseEv :=
  let steps := dragSteps duration
  [MouseEv.move sx sy, MouseEv.down]
    ++ (List.range steps).map
        (fun i => MouseEv.move (dragWaypoint sx ex steps i) (dragWaypoint sy ey steps i))
    ++ [MouseEv.move ex ey, MouseEv.up]

/-- The pointer position after a sequence of events: the coordinates of
the last `move` event, if any. -/
def lastMove (evs : List MouseEv) : Option (ℤ × ℤ) :=
  evs.foldl (fun acc e => match e with | .move x y => some (x, y) | _ => acc) none

end WinInput

namespace WinCapture

open WinInput

/-- From `windows_capture.py` lines 7-20: the frozen `Rect` dataclass.
Immutability is inherent to the embedding (a `structure` value). -/
structure Rect where
  left : ℤ
  top : ℤ
  right : ℤ
  bottom : ℤ
  deriving DecidableEq, Repr

/-- `Rect.width` property: `max(0, self.right - self.left)`. -/
def Rect.width (r : Rect) : ℤ := max 0 (r.right - r.left)

/-- `Rect.height` property: `max(0, self.bottom - self.top)`. -/
def Rect.height (r : Rect) : ℤ := max 0 (r.bottom - r.top)

/-- Title normalization from `find_window_hwnd`'s inner `norm`:
`s if case_sensitive else s.lower()`.  Titles are modelled as `List Char`. -/
def normT (cs : Bool) (s : List Char) : List Char :=
  if cs then s else s.map Char.toLower

/-- `leadsWith q t` holds when `q` is an initial segment of `t`
(helper for the Python substring test `q in t`). -/
def leadsWith : List Char → List Char → Bool
  | [], _ => true
  | _ :: _, [] => false
  | a :: as, b :: bs => a == b && leadsWith as bs

/-- `occursIn q t` is the Python substring test `q in t`: `q` occurs
contiguously somewhere inside `t`. -/
def occursIn (q : List Char) : List Char → Bool
  | [] => leadsWith q []
  | c :: rest => leadsWith q (c :: rest) || occursIn q rest

/-- The scan loop of `find_window_hwnd` (lines 109-115), with the query
already normalized: per entry, `if exact and t == q: return hwnd;
if not exact and q in t: return hwnd`. -/
def findFrom (q : List Char) (exactM cs : Bool) : List (ℕ × List Char) → Option ℕ
  | [] => none
  | (hwnd, title) :: rest =>
    let t := normT cs title
    if exactM && (t == q) then some hwnd
    else if !exactM && occursIn q t then some hwnd
    else findFrom q exactM cs rest

/-- From `windows_capture.py` lines 95-115: `find_window_hwnd`, with the
window list (from `list_visible_windows`) passed explicitly. -/
def find_window_hwnd (query : List Char) (exactM cs : Bool)
    (windows : List (ℕ × List Char)) : Option ℕ :=
  findFrom (normT cs query) exactM cs windows

/-- The two DPI-awareness platform calls attempted by
`_try_set_dpi_awareness`. -/
inductive DpiCall where
  | perMonitor
  | system
  deriving DecidableEq, Repr

/-- The process-wide DPI mode resulting from `_try_set_dpi_awareness`. -/
inductive DpiMode where
  | perMonitor
  | system
  | unset
  deriving DecidableEq, Repr

/-- `try: body except Exception: pass`-style catch-all: the fallback value
replaces any raised exception. -/
def tryAll {α : Type} (body : Except Unit α) (fallback : α) : α :=
  match body with
  | .ok a => a
  | .error _ => fallback

/-- The body of `_try_set_dpi_awareness` (lines 30-46): import `ctypes`,
try the per-monitor call (`shcore.SetProcessDpiAwareness(2)`) and return on
success; on exception fall back to the system call
(`user32.SetProcessDPIAware()`), whose exception is also swallowed.
Returns the calls attempted and the mode that ended up set. -/
def dpiBody (importCtypes pmCall sysCall : Except Unit Unit) :
    Except Unit (List DpiCall × DpiMode) := do
  importCtypes
  match pmCall with
  | .ok _ => return ([DpiCall.perMonitor], DpiMode.perMonitor)
  | .error _ =>
    match sysCall with
    | .ok _ => return ([DpiCall.perMonitor, DpiCall.system], DpiMode.system)
    | .error _ => return ([DpiCall.perMonitor, DpiCall.system], DpiMode.unset)

/-- From `windows_capture.py` lines 23-46: `_try_set_dpi_awareness`, the
whole body wrapped in a catch-all `try/except`.  Total: it returns a plain
value (attempted calls, resulting mode) for every outcome of the
underlying platform calls — the embedding of "never raises". -/
def _try_set_dpi_awareness (importCtypes pmCall sysCall : Except Unit Unit) :
    List DpiCall × DpiMode :=
  tryAll (dpiBody importCtypes pmCall sysCall) ([], DpiMode.unset)

/-- Exceptions raised by the capture layer. -/
inductive CapErr where
  | osError
  | importError
  | handleInvalid
  | valueError
  deriving DecidableEq, Repr

/-- A numpy pixel buffer: `h × w × c` array of 8-bit samples; `pix i j k`
is sample `[i, j, k]` (indices beyond the stated bounds are junk). -/
structure Buf where
  h : ℕ
  w : ℕ
  c : ℕ
  pix : ℕ → ℕ → ℕ → ℕ

/-- The OS/platform environment the capture module runs against:
availability flags for the platform and the optional imports, the win32
geometry queries (raising on an invalid handle), the screen contents in
BGRA, and the `mss` monitor list (index 0 = all-monitors bounding box). -/
structure WinEnv where
  isWindows : Bool
  pywin32 : Bool
  mssOk : Bool
  valid : ℕ → Bool
  clientToScreen : ℕ → ℤ × ℤ
  clientRect : ℕ → ℤ × ℤ × ℤ × ℤ
  winRect : ℕ → ℤ × ℤ × ℤ × ℤ
  screen : ℤ → ℤ → ℕ → ℕ
  monitors : List Rect

/-- From `windows_capture.py` lines 118-139: `get_window_rect`.
(`_try_set_dpi_awareness` is also called there; it touches no modelled
state and emits no event, so it does not appear.)  The win32 calls raise
on a dead handle, modelled by the `valid` check. -/
def get_window_rect (env : WinEnv) (hwnd : ℕ) (client_area : Bool) :
    Except CapErr Rect :=
  if !env.isWindows then .error CapErr.osError
  else if !env.pywin32 then .error CapErr.importError
  else if !env.valid hwnd then .error CapErr.handleInvalid
  else if client_area then
    let lt := env.clientToScreen hwnd
    let cr := env.clientRect hwnd
    let width := cr.2.2.1 - cr.1
    let height := cr.2.2.2 - cr.2.1
    .ok { left := lt.1, top := lt.2, right := lt.1 + width, bottom := lt.2 + height }
  else
    let r := env.winRect hwnd
    .ok { left := r.1, top := r.2.1, right := r.2.2.1, bottom := r.2.2.2 }

/-- `sct.grab(monitor)` for a rectangle: a BGRA buffer of the rect's size
whose sample `(i, j)` reads the screen at `(top + i, left + j)`. -/
def grabRect (env : WinEnv) (rect : Rect) : Buf :=
  { h := rect.height.toNat, w := rect.width.toNat, c := 4,
    pix := fun i j k => env.screen (rect.top + i) (rect.left + j) k }

/-- From `windows_capture.py` lines 142-162: `capture_rect_bgra`
(raises `ImportError` when `mss` is missing). -/
def capture_rect_bgra (env : WinEnv) (rect : Rect) : Except CapErr Buf :=
  if !env.mssOk then .error CapErr.importError
  else .ok (grabRect env rect)

/-- From `windows_capture.py` lines 165-175: `bgra_to_rgb`,
`np.stack([r, g, b], axis=-1)` where `b/g/r` are input channels `0/1/2`. -/
def bgra_to_rgb (frame : Buf) : Buf :=
  { h := frame.h, w := frame.w, c := 3,
    pix := fun i j k =>
      if k = 0 then frame.pix i j 2
      else if k = 1 then frame.pix i j 1
      else frame.pix i j 0 }

/-- From `windows_capture.py` lines 178-183: `capture_window_rgb`. -/
def capture_window_rgb (env : WinEnv) (hwnd : ℕ) (client_area : Bool) :
    Except CapErr Buf := do
  let rect ← get_window_rect env hwnd client_area
  let frame ← capture_rect_bgra env rect
  return bgra_to_rgb frame

/-- From `windows_capture.py` lines 186-205: `capture_fullscreen_rgb`.
The first component is the trace of `sct.grab` calls performed, so that
"never attempts a capture call" is expressible. -/
def capture_fullscreen_rgb (env : WinEnv) (monitor_index : ℤ) :
    List Rect × Except CapErr Buf :=
  if !env.mssOk then ([], .error CapErr.importError)
  else if monitor_index < 0 ∨ monitor_index ≥ (env.monitors.length : ℤ) then
    ([], .error CapErr.valueError)
  else
    let m := env.monitors.getD monitor_index.toNat (Rect.mk 0 0 0 0)
    ([m], .ok (bgra_to_rgb (grabRect env m)))

/-- A sample platform environment used to instantiate capture theorems. -/
def sampleEnv : WinEnv :=
  { isWindows := true, pywin32 := true, mssOk := true,
    valid := fun _ => true,
    clientToScreen := fun _ => (0, 0),
    clientRect := fun _ => (0, 0, 0, 0),
    winRect := fun _ => (0, 0, 0, 0),
    screen := fun _ _ _ => 0,
    monitors := [Rect.mk 0 0 0 0] }

end WinCapture

namespace WinInput

/-! ### Helper lemmas about `truncQ` -/

theorem truncQ_mono {a b : ℚ} (h : a ≤ b) : truncQ a ≤ truncQ b := by
  unfold truncQ
  by_cases ha : 0 ≤ a
  · have hb : 0 ≤ b := ha.trans h
    simp only [ha, hb, if_pos]
    exact Int.floor_le_floor h
  · by_cases hb : 0 ≤ b
    · simp only [ha, hb, if_pos, if_neg, not_false_iff]
      have h1 : ⌈a⌉ ≤ 0 := Int.ceil_le.mpr (by exact_mod_cast le_of_not_le ha)
      have h2 : 0 ≤ ⌊b⌋ := Int.floor_nonneg.mpr hb
      omega
    · simp only [ha, hb, if_neg, not_false_iff]
      exact Int.ceil_le_ceil h

theorem truncQ_bounds {a b : ℤ} {v : ℚ} (ha : (a : ℚ) ≤ v) (hb : v ≤ (b : ℚ)) :
    a ≤ truncQ v ∧ truncQ v ≤ b := by
  unfold truncQ
  split
  · refine ⟨Int.le_floor.mpr ha, ?_⟩
    calc ⌊v⌋ ≤ ⌊(b : ℚ)⌋ := Int.floor_le_floor hb
    _ = b := Int.floor_intCast b
  · refine ⟨?_, Int.ceil_le.mpr hb⟩
    calc a = ⌈(a : ℚ)⌉ := (Int.ceil_intCast a).symm
    _ ≤ ⌈v⌉ := Int.ceil_le_ceil ha

theorem truncQ_intCast (z : ℤ) : truncQ (z : ℚ) = z := by
  unfold truncQ
  split
  · exact Int.floor_intCast z
  · exact Int.ceil_intCast z

end WinInput

namespace WinCapture

/-- Claim C5: for every Rect, including those constructed with
`right < left` or `bottom < top`, the derived width equals
`max(0, right - left)` and the derived height equals `max(0, bottom - top)`,
so width and height are never negative.  (Immutability holds by
construction: `Rect` is a pure value.) -/
theorem C5_rect_nonneg_dims (l t r b : ℤ) :
    (Rect.mk l t r b).width = max 0 (r - l) ∧
    (Rect.mk l t r b).height = max 0 (b - t) ∧
    0 ≤ (Rect.mk l t r b).width ∧ 0 ≤ (Rect.mk l t r b).height :=
  ⟨rfl, rfl, le_max_left 0 _, le_max_left 0 _⟩

/-- Claim C4: for every 4-channel BGRA input buffer, `bgra_to_rgb` produces
a 3-channel output in (red, green, blue) order with the same height and
width, discarding alpha: output channel 0 = input channel 2, output
channel 1 = input channel 1, output channel 2 = input channel 0; for an
input whose only nonzero channel is blue (channel 0), the output's first
two channels are zero and the blue values appear in the third channel. -/
theorem C4_bgra_to_rgb_channels (frame : Buf) (_hc : frame.c = 4) :
    (bgra_to_rgb frame).h = frame.h ∧ (bgra_to_rgb frame).w = frame.w ∧
    (bgra_to_rgb frame).c = 3 ∧
    (∀ i j, (bgra_to_rgb frame).pix i j 0 = frame.pix i j 2 ∧
            (bgra_to_rgb frame).pix i j 1 = frame.pix i j 1 ∧
            (bgra_to_rgb frame).pix i j 2 = frame.pix i j 0) ∧
    ((∀ i j, frame.pix i j 1 = 0 ∧ frame.pix i j 2 = 0) →
      ∀ i j, (bgra_to_rgb frame).pix i j 0 = 0 ∧
             (bgra_to_rgb frame).pix i j 1 = 0 ∧
             (bgra_to_rgb frame).pix i j 2 = frame.pix i j 0) := by
  refine ⟨rfl, rfl, rfl, fun i j => ⟨rfl, rfl, rfl⟩, fun hblue i j => ?_⟩
  exact ⟨(hblue i j).2, (hblue i j).1, rfl⟩

/-- Witness for C4 at a concrete blue-only 2×2 buffer. -/
theorem C4_bgra_to_rgb_channels_witness :
    (Buf.mk 2 2 4 (fun _ _ k => if k = 0 then 7 else 0)).c = 4 ∧
    ((bgra_to_rgb (Buf.mk 2 2 4 (fun _ _ k => if k = 0 then 7 else 0))).pix 0 0 0 = 0 ∧
     (bgra_to_rgb (Buf.mk 2 2 4 (fun _ _ k => if k = 0 then 7 else 0))).pix 0 0 1 = 0 ∧
     (bgra_to_rgb (Buf.mk 2 2 4 (fun _ _ k => if k = 0 then 7 else 0))).pix 0 0 2 = 7) := by
  have h := C4_bgra_to_rgb_channels (Buf.mk 2 2 4 (fun _ _ k => if k = 0 then 7 else 0)) rfl
  have h2 := h.2.2.2.2 (fun i j => ⟨rfl, rfl⟩) 0 0
  exact ⟨rfl, h2.1, h2.2.1, h2.2.2⟩

theorem leadsWith_iff (q t : List Char) :
    leadsWith q t = true ↔ ∃ u, t = q ++ u := by
  induction q generalizing t with
  | nil =>
    simp only [leadsWith, List.nil_append]
    exact ⟨fun _ => ⟨t, rfl⟩, fun _ => trivial⟩
  | cons a as ih =>
    cases t with
    | nil => simp [leadsWith]
    | cons b bs =>
      simp only [leadsWith, Bool.and_eq_true, beq_iff_eq, ih, List.cons_append,
        List.cons.injEq]
      constructor
      · rintro ⟨hab, u, hu⟩
        exact ⟨u, hab.symm, hu⟩
      · rintro ⟨u, hab, hu⟩
        exact ⟨hab.symm, u, hu⟩

theorem occursIn_iff (q t : List Char) :
    occursIn q t = true ↔ ∃ s u, t = s ++ q ++ u := by
  induction t with
  | nil =>
    simp only [occursIn, leadsWith_iff]
    constructor
    · rintro ⟨u, hu⟩
      exact ⟨[], u, by simpa using hu⟩
    · rintro ⟨s, u, hu⟩
      have h3 : s = [] ∧ q = [] ∧ u = [] := by simpa using hu.symm
      exact ⟨[], by simp [h3.2.1]⟩
  | cons c cs ih =>
    simp only [occursIn, Bool.or_eq_true, leadsWith_iff, ih]
    constructor
    · rintro (⟨u, hu⟩ | ⟨s, u, hu⟩)
      · exact ⟨[], u, by simpa using hu⟩
      · exact ⟨c :: s, u, by simp [hu]⟩
    · rintro ⟨s, u, hu⟩
      cases s with
      | nil => exact Or.inl ⟨u, by simpa using hu⟩
      | cons a s2 =>
        right
        refine ⟨s2, u, ?_⟩
        have := (List.cons.injEq c cs a (s2 ++ q ++ u)).mp (by simpa using hu)
        exact this.2

theorem occursIn_nil_left (t : List Char) : occursIn [] t = true :=
  (occursIn_iff [] t).mpr ⟨[], t, by simp⟩

theorem normT_eq_nil_iff (cs : Bool) (t : List Char) :
    normT cs t = [] ↔ t = [] := by
  cases cs <;> simp [normT]

theorem findFrom_eq_find? (q : List Char) (exactM cs : Bool)
    (ws : List (ℕ × List Char)) :
    findFrom q exactM cs ws =
      (ws.find? (fun p =>
        if exactM then normT cs p.2 == q else occursIn q (normT cs p.2))).map
        Prod.fst := by
  induction ws with
  | nil => rfl
  | cons p rest ih =>
    obtain ⟨hwnd, title⟩ := p
    show (if exactM && (normT cs title == q) then some hwnd
      else if !exactM && occursIn q (normT cs title) then some hwnd
      else findFrom q exactM cs rest) = _
    cases exactM with
    | false =>
      simp only [Bool.false_and, Bool.not_false, Bool.true_and, if_false]
      by_cases hocc : occursIn q (normT cs title) = true
      · simp [List.find?, hocc]
      · simp only [Bool.not_eq_true] at hocc
        simp [List.find?, hocc, ih]
    | true =>
      simp only [Bool.true_and, Bool.not_true, Bool.false_and, if_false]
      by_cases heq : (normT cs title == q) = true
      · simp [List.find?, heq]
      · simp only [Bool.not_eq_true] at heq
        simp [List.find?, heq, ih]

/-- Claim C3: `find_window_hwnd` with `exact=true` returns the handle of
the first entry whose normalized title equals the normalized query; with
`exact=false`, the first whose normalized title contains the normalized
query as a substring; normalization lower-cases both sides exactly when
`case_sensitive=false`; an empty list yields `none`; first match in list
order wins and no match yields `none` (both via `List.find?`). -/
theorem C3_find_window_semantics (q : List Char) (cs : Bool)
    (ws : List (ℕ × List Char)) :
    (find_window_hwnd q true cs ws =
      (ws.find? (fun p => normT cs p.2 == normT cs q)).map Prod.fst) ∧
    (find_window_hwnd q false cs ws =
      (ws.find? (fun p => occursIn (normT cs q) (normT cs p.2))).map Prod.fst) ∧
    (normT false q = q.map Char.toLower ∧ normT true q = q) ∧
    (∀ exactM : Bool, find_window_hwnd q exactM cs [] = none) ∧
    (∀ t : List Char,
      occursIn (normT cs q) t = true ↔ ∃ s u, t = s ++ normT cs q ++ u) := by
  exact ⟨findFrom_eq_find? (normT cs q) true cs ws,
    findFrom_eq_find? (normT cs q) false cs ws,
    ⟨rfl, rfl⟩, fun exactM => rfl, fun t => occursIn_iff _ t⟩

/-- Claim C9: with a non-empty window list, the empty-string query with
`exact=false` returns the first entry's handle (the empty string is a
substring of every title); the empty query yields `none` exactly when the
list is empty, or `exact=true` and no title is empty. -/
theorem C9_empty_query (cs : Bool) (ws : List (ℕ × List Char)) :
    (ws ≠ [] → find_window_hwnd [] false cs ws = ws.head?.map Prod.fst) ∧
    (∀ exactM : Bool,
      find_window_hwnd [] exactM cs ws = none ↔
        ws = [] ∨ (exactM = true ∧ ∀ p ∈ ws, p.2 ≠ ([] : List Char))) := by
  have hnorm : normT cs [] = [] := by cases cs <;> rfl
  constructor
  · intro hne
    cases ws with
    | nil => exact absurd rfl hne
    | cons p rest =>
      have h1 : find_window_hwnd [] false cs (p :: rest) =
          ((p :: rest).find? (fun x => occursIn [] (normT cs x.2))).map Prod.fst := by
        refine Eq.trans (findFrom_eq_find? (normT cs []) false cs (p :: rest)) ?_
        rw [hnorm]
        rfl
      have hfind : List.find? (fun x => occursIn [] (normT cs x.2)) (p :: rest) =
          some p := List.find?_cons_of_pos _ (occursIn_nil_left _)
      rw [h1, hfind]
      rfl
  · intro exactM
    cases exactM with
    | false =>
      have h1 : find_window_hwnd [] false cs ws =
          (ws.find? (fun x => occursIn [] (normT cs x.2))).map Prod.fst := by
        refine Eq.trans (findFrom_eq_find? (normT cs []) false cs ws) ?_
        rw [hnorm]
        rfl
      rw [h1]
      cases ws with
      | nil => simp
      | cons p rest =>
        have hfind : List.find? (fun x => occursIn [] (normT cs x.2)) (p :: rest) =
            some p := List.find?_cons_of_pos _ (occursIn_nil_left _)
        rw [hfind]
        simp
    | true =>
      have h1 : find_window_hwnd [] true cs ws =
          (ws.find? (fun x => normT cs x.2 == [])).map Prod.fst := by
        refine Eq.trans (findFrom_eq_find? (normT cs []) true cs ws) ?_
        rw [hnorm]
        rfl
      rw [h1]
      simp only [Option.map_eq_none', List.find?_eq_none, beq_iff_eq,
        normT_eq_nil_iff]
      constructor
      · intro h
        exact Or.inr ⟨trivial, h⟩
      · rintro (h | ⟨_, h⟩)
        · subst h
          simp
        · exact h

/-- Witness for C9: a one-entry list and the empty query with
`exact=false` yields that entry's handle. -/
theorem C9_empty_query_witness :
    ([((100 : ℕ), ['a'])] : List (ℕ × List Char)) ≠ [] ∧
    find_window_hwnd [] false false [((100 : ℕ), ['a'])] = some 100 := by
  have h := C9_empty_query false [((100 : ℕ), ['a'])]
  refine ⟨by simp, ?_⟩
  rw [h.1 (by simp)]
  rfl

/-- Claim C7: `_try_set_dpi_awareness` never raises and returns no value,
for every outcome of the underlying platform calls (totality of the
embedded function): it attempts the per-monitor mode first and stops there
on success; if that fails it falls back to the system mode; if both fail
it proceeds silently (mode stays unset); and if the `ctypes` import itself
fails, nothing is attempted and it still returns silently.  Repetition is
a no-op in effect: the result depends only on the platform outcomes. -/
theorem C7_dpi_awareness_fallback (pmCall sysCall : Except Unit Unit) :
    _try_set_dpi_awareness (Except.ok ()) pmCall sysCall =
      (match pmCall with
       | .ok _ => ([DpiCall.perMonitor], DpiMode.perMonitor)
       | .error _ =>
         ([DpiCall.perMonitor, DpiCall.system],
          match sysCall with
          | .ok _ => DpiMode.system
          | .error _ => DpiMode.unset)) ∧
    _try_set_dpi_awareness (Except.error ()) pmCall sysCall = ([], DpiMode.unset) := by
  cases pmCall <;> cases sysCall <;> exact ⟨rfl, rfl⟩

/-- Claim C6: with `mss` available, `capture_fullscreen_rgb` fails with the
out-of-range error exactly when the index is outside `[0, monitorCount-1]`,
and in that case it performs no grab call (empty grab trace). -/
theorem C6_monitor_index_range (env : WinEnv) (monitor_index : ℤ)
    (hm : env.mssOk = true) :
    ((capture_fullscreen_rgb env monitor_index).2 = Except.error CapErr.valueError ↔
      (monitor_index < 0 ∨ monitor_index ≥ (env.monitors.length : ℤ))) ∧
    ((monitor_index < 0 ∨ monitor_index ≥ (env.monitors.length : ℤ)) →
      (capture_fullscreen_rgb env monitor_index).1 = []) := by
  unfold capture_fullscreen_rgb
  rw [hm]
  by_cases hr : monitor_index < 0 ∨ monitor_index ≥ (env.monitors.length : ℤ)
  · simp [hr]
  · simp [hr]

/-- Witness for C6: index 5 against a one-monitor environment errors with
no grab attempted. -/
theorem C6_monitor_index_range_witness :
    (capture_fullscreen_rgb sampleEnv 5).2 = Except.error CapErr.valueError ∧
    (capture_fullscreen_rgb sampleEnv 5).1 = [] := by
  have h := C6_monitor_index_range sampleEnv 5 rfl
  have hr : (5 : ℤ) < 0 ∨ (5 : ℤ) ≥ (sampleEnv.monitors.length : ℤ) := by
    right; decide
  exact ⟨h.1.mpr hr, h.2 hr⟩

/-- Claim C8: `capture_window_rgb` is the composition of `get_window_rect`
followed by `capture_rect_bgra` and `bgra_to_rgb`, and it fails with
`handleInvalid` exactly when `get_window_rect` does. -/
theorem C8_capture_window_is_composition (env : WinEnv) (hwnd : ℕ)
    (client_area : Bool) :
    capture_window_rgb env hwnd client_area =
      (get_window_rect env hwnd client_area).bind
        (fun rect => (capture_rect_bgra env rect).map bgra_to_rgb) ∧
    (capture_window_rgb env hwnd client_area = Except.error CapErr.handleInvalid ↔
      get_window_rect env hwnd client_area = Except.error CapErr.handleInvalid) := by
  have hcomp : capture_window_rgb env hwnd client_area =
      (get_window_rect env hwnd client_area).bind
        (fun rect => (capture_rect_bgra env rect).map bgra_to_rgb) := by
    unfold capture_window_rgb
    cases hg : get_window_rect env hwnd client_area with
    | error e => rfl
    | ok rect =>
      show (capture_rect_bgra env rect).bind _ = (capture_rect_bgra env rect).map _
      cases capture_rect_bgra env rect with
      | error e => rfl
      | ok frame => rfl
  refine ⟨hcomp, ?_⟩
  rw [hcomp]
  cases hg : get_window_rect env hwnd client_area with
  | error e =>
    show (Except.error e : Except CapErr Buf) = Except.error CapErr.handleInvalid ↔
      (Except.error e : Except CapErr Rect) = Except.error CapErr.handleInvalid
    simp
  | ok rect =>
    unfold capture_rect_bgra
    by_cases hm : env.mssOk = true
    · rw [hm]
      show (Except.ok (bgra_to_rgb (grabRect env rect)) : Except CapErr Buf) =
          Except.error CapErr.handleInvalid ↔
        (Except.ok rect : Except CapErr Rect) = Except.error CapErr.handleInvalid
      simp
    · simp only [Bool.not_eq_true] at hm
      rw [hm]
      show (Except.error CapErr.importError : Except CapErr Buf) =
          Except.error CapErr.handleInvalid ↔
        (Except.ok rect : Except CapErr Rect) = Except.error CapErr.handleInvalid
      simp

end WinCapture

namespace WinInput

theorem toAbs_mono {p q dim : ℤ} (hdim : 0 < dim) (hpq : p ≤ q) :
    truncQ ((p * 65535 : ℚ) / dim) ≤ truncQ ((q * 65535 : ℚ) / dim) := by
  apply truncQ_mono
  have hd : (0 : ℚ) < (dim : ℚ) := by exact_mod_cast hdim
  have hnum : ((p : ℚ) * 65535) ≤ (q : ℚ) * 65535 := by
    have hq : (p : ℚ) ≤ (q : ℚ) := by exact_mod_cast hpq
    nlinarith
  exact (div_le_div_iff_of_pos_right hd).mpr hnum

theorem toAbs_last {dim : ℤ} (hdim : 0 < dim) :
    (65535 : ℚ) - 65535 / (dim : ℚ) - 1 <
      (truncQ ((((dim - 1) : ℤ) : ℚ) * 65535 / (dim : ℚ)) : ℚ) ∧
    truncQ ((((dim - 1) : ℤ) : ℚ) * 65535 / (dim : ℚ)) ≤ 65535 := by
  have hd : (0 : ℚ) < (dim : ℚ) := by exact_mod_cast hdim
  have hd1 : (1 : ℚ) ≤ (dim : ℚ) := by exact_mod_cast hdim
  have hcast : (((dim - 1) : ℤ) : ℚ) = (dim : ℚ) - 1 := by push_cast; ring
  set v : ℚ := (((dim - 1) : ℤ) : ℚ) * 65535 / (dim : ℚ) with hv
  have hv0 : 0 ≤ v := by
    rw [hv, hcast]
    apply div_nonneg _ hd.le
    nlinarith
  have veq : v = 65535 - 65535 / (dim : ℚ) := by
    rw [hv, hcast]
    field_simp
    ring
  have hvle : v ≤ ((65535 : ℤ) : ℚ) := by
    rw [veq]
    have : 0 < 65535 / (dim : ℚ) := by positivity
    push_cast
    linarith
  have htrunc : truncQ v = ⌊v⌋ := if_pos hv0
  constructor
  · rw [htrunc]
    calc (65535 : ℚ) - 65535 / (dim : ℚ) - 1 = v - 1 := by rw [veq]
    _ < ⌊v⌋ := Int.sub_one_lt_floor v
  · exact (truncQ_bounds (by exact_mod_cast hv0) hvle).2

/-- Claim C1 (amended): `_to_absolute_coords` maps pixel to absolute
coordinates by truncation toward zero (Python `int(...)`) of
`pixel * 65535 / screenDimension` — not by rounding to nearest —
independently for x (screen width) and y (screen height); the mapping is
monotonic in each coordinate; pixel `(0,0)` maps to `(0,0)`; and pixel
`(width-1, height-1)` lands within one unit above `65535 - 65535/dim` on
each axis, i.e. near `(65535, 65535)`. -/
theorem C1_to_absolute_coords_trunc (x x' y y' width height : ℤ)
    (hw : 0 < width) (hh : 0 < height) (hx : x ≤ x') (hy : y ≤ y') :
    _to_absolute_coords x y width height =
      (truncQ ((x * 65535 : ℚ) / width), truncQ ((y * 65535 : ℚ) / height)) ∧
    ((_to_absolute_coords x y width height).1 ≤
        (_to_absolute_coords x' y' width height).1 ∧
     (_to_absolute_coords x y width height).2 ≤
        (_to_absolute_coords x' y' width height).2) ∧
    _to_absolute_coords 0 0 width height = (0, 0) ∧
    ((65535 : ℚ) - 65535 / (width : ℚ) - 1 <
        ((_to_absolute_coords (width - 1) (height - 1) width height).1 : ℚ) ∧
     (_to_absolute_coords (width - 1) (height - 1) width height).1 ≤ 65535 ∧
     (65535 : ℚ) - 65535 / (height : ℚ) - 1 <
        ((_to_absolute_coords (width - 1) (height - 1) width height).2 : ℚ) ∧
     (_to_absolute_coords (width - 1) (height - 1) width height).2 ≤ 65535) := by
  refine ⟨rfl, ⟨toAbs_mono hw hx, toAbs_mono hh hy⟩, ?_, ?_⟩
  · simp [_to_absolute_coords, truncQ]
  · exact ⟨(toAbs_last hw).1, (toAbs_last hw).2, (toAbs_last hh).1, (toAbs_last hh).2⟩

/-- Witness for C1 at a 1920×1080 screen with pixels 0 ≤ 1. -/
theorem C1_to_absolute_coords_trunc_witness :
    (0 : ℤ) < 1920 ∧ (0 : ℤ) < 1080 ∧ (0 : ℤ) ≤ 1 ∧
    _to_absolute_coords 0 0 1920 1080 = (0, 0) := by
  have h := C1_to_absolute_coords_trunc 0 1 0 1 1920 1080 (by norm_num)
    (by norm_num) (by norm_num) (by norm_num)
  exact ⟨by norm_num, by norm_num, by norm_num, h.2.2.1⟩

/-- Counterexample to C1 as stated: at pixel `(1,1)` on a 4×4 screen the
code truncates `65535/4 = 16383.75` to `16383`, while the claimed
`round` formula gives `16384`. -/
theorem C1_round_formula_counterexample :
    _to_absolute_coords 1 1 4 4 ≠ (toAbsoluteSpec 1 4, toAbsoluteSpec 1 4) := by
  have h1 : (_to_absolute_coords 1 1 4 4).1 = 16383 := by
    norm_num [_to_absolute_coords, truncQ]
  have h2 : toAbsoluteSpec 1 4 = 16384 := by
    norm_num [toAbsoluteSpec, round_eq]
  intro hcontra
  have hfst := congrArg Prod.fst hcontra
  rw [h1, h2] at hfst
  simp at hfst

/-- Claim C2 (amended): `drag` interpolates over
`steps = max(10, int(duration * 60))` increments — truncation, not
rounding; at step `i` the emitted position is
`start + (end-start)*(i+1)/steps` truncated toward zero; the step loop is
followed by a final corrective move to `(endX, endY)`, so the final
emitted pointer position is exactly `(endX, endY)` regardless of
interpolation rounding, even when start equals end. -/
theorem C2_drag_lands_exactly (sx sy ex ey : ℤ) (d : ℚ) :
    dragSteps d = max 10 (truncQ (d * 60)).toNat ∧
    dragEvents sx sy ex ey d =
      [MouseEv.move sx sy, MouseEv.down]
        ++ (List.range (dragSteps d)).map
            (fun (i : ℕ) => MouseEv.move
              (truncQ ((sx : ℚ) + ((ex : ℚ) - (sx : ℚ)) *
                (((i : ℚ) + 1) / (dragSteps d : ℚ))))
              (truncQ ((sy : ℚ) + ((ey : ℚ) - (sy : ℚ)) *
                (((i : ℚ) + 1) / (dragSteps d : ℚ)))))
        ++ [MouseEv.move ex ey, MouseEv.up] ∧
    lastMove (dragEvents sx sy ex ey d) = some (ex, ey) := by
  refine ⟨rfl, rfl, ?_⟩
  have h : dragEvents sx sy ex ey d =
      ([MouseEv.move sx sy, MouseEv.down]
        ++ (List.range (dragSteps d)).map
            (fun i => MouseEv.move (dragWaypoint sx ex (dragSteps d) i)
              (dragWaypoint sy ey (dragSteps d) i)))
        ++ [MouseEv.move ex ey, MouseEv.up] := rfl
  rw [lastMove, h, List.foldl_append]
  rfl

/-- Counterexample to C2 as stated: at `duration = 0.51` s the code's step
count is `max(10, int(30.6)) = 30`, while the claimed `round` formula
gives `max(10, round(30.6)) = 31`. -/
theorem C2_round_steps_counterexample :
    dragSteps (51 / 100) ≠ dragStepsSpec (51 / 100) ∧
    dragSteps (51 / 100) = 30 ∧ dragStepsSpec (51 / 100) = 31 := by
  have h1 : dragSteps (51 / 100) = 30 := by
    norm_num [dragSteps, truncQ]
    rfl
  have h2 : dragStepsSpec (51 / 100) = 31 := by
    norm_num [dragStepsSpec, round_eq]
    rfl
  refine ⟨?_, h1, h2⟩
  rw [h1, h2]
  norm_num

theorem dragWaypoint_mem {s e : ℤ} {steps : ℕ} (hsteps : 0 < steps) {i : ℕ}
    (hi : i < steps) :
    min s e ≤ dragWaypoint s e steps i ∧ dragWaypoint s e steps i ≤ max s e := by
  have hstQ : (0 : ℚ) < (steps : ℚ) := by exact_mod_cast hsteps
  have ht0 : 0 ≤ ((i : ℚ) + 1) / (steps : ℚ) := by positivity
  have ht1 : ((i : ℚ) + 1) / (steps : ℚ) ≤ 1 := by
    rw [div_le_one hstQ]
    exact_mod_cast Nat.succ_le_of_lt hi
  unfold dragWaypoint
  rcases le_total s e with hse | hse
  · rw [min_eq_left hse, max_eq_right hse]
    have hseQ : (s : ℚ) ≤ (e : ℚ) := by exact_mod_cast hse
    refine truncQ_bounds ?_ ?_
    · nlinarith
    · nlinarith
  · rw [min_eq_right hse, max_eq_left hse]
    have hseQ : (e : ℚ) ≤ (s : ℚ) := by exact_mod_cast hse
    refine truncQ_bounds ?_ ?_
    · nlinarith
    · nlinarith

/-- Claim C10: for `duration ≥ 0`, every waypoint emitted during the
interpolation loop of `drag` lies componentwise within the closed segment
bounding box: each x between `min(startX, endX)` and `max(startX, endX)`,
each y between `min(startY, endY)` and `max(startY, endY)`. -/
theorem C10_drag_waypoints_in_box (sx sy ex ey : ℤ) (d : ℚ) (_hd : 0 ≤ d)
    (i : ℕ) (hi : i < dragSteps d) :
    (min sx ex ≤ dragWaypoint sx ex (dragSteps d) i ∧
     dragWaypoint sx ex (dragSteps d) i ≤ max sx ex) ∧
    (min sy ey ≤ dragWaypoint sy ey (dragSteps d) i ∧
     dragWaypoint sy ey (dragSteps d) i ≤ max sy ey) :=
  have hpos : 0 < dragSteps d :=
    lt_of_lt_of_le (by norm_num) (le_max_left 10 (truncQ (d * 60)).toNat)
  ⟨dragWaypoint_mem hpos hi, dragWaypoint_mem hpos hi⟩

/-- Witness for C10 at `duration = 0.5` s, step 3 of the drag from
`(0,0)` to `(10,10)`. -/
theorem C10_drag_waypoints_in_box_witness :
    (0 : ℚ) ≤ 1 / 2 ∧ 3 < dragSteps (1 / 2) ∧
    ((min (0 : ℤ) 10 ≤ dragWaypoint 0 10 (dragSteps (1 / 2)) 3 ∧
      dragWaypoint 0 10 (dragSteps (1 / 2)) 3 ≤ max (0 : ℤ) 10) ∧
     (min (0 : ℤ) 10 ≤ dragWaypoint 0 10 (dragSteps (1 / 2)) 3 ∧
      dragWaypoint 0 10 (dragSteps (1 / 2)) 3 ≤ max (0 : ℤ) 10)) := by
  have hd : (0 : ℚ) ≤ 1 / 2 := by norm_num
  have hi : 3 < dragSteps (1 / 2) := by
    have h30 : dragSteps (1 / 2) = 30 := by
      norm_num [dragSteps, truncQ]
      rfl
    rw [h30]
    norm_num
  exact ⟨hd, hi, C10_drag_waypoints_in_box 0 0 10 10 (1 / 2) hd 3 hi⟩

end WinInput
